import Mathlib

/-!
# auto-sync: debounce gate and sync orchestration loop

A shallow embedding of `main.go`.  The external world (the `git` child
processes and the clock) is an oracle `World`; every observable action of the
program is appended to a chronological trace of `Effect`s, so that the order
in which commands are invoked, the clock is read and the debounce timestamp
is assigned can be stated and proved.
-/

namespace AutoSync

/-! ## External world -/

/-- Go `error` value; `none` is `nil`. -/
abbrev GoError := Option String

/-- One external process invocation: `exec.Command(name, args...)` with
`cmd.Dir = dir`. -/
structure Command where
  dir : String
  name : String
  args : List String
deriving DecidableEq, Repr

/-- Result of `cmd.Output()`: the captured output and the error (nil on a
zero exit status). -/
structure ProcResult where
  output : String
  err : GoError
deriving DecidableEq, Repr

/-- Levels of the zerolog logger used by the program. -/
inductive Level
  | debug
  | info
  | warn
  | error
  | fatal
deriving DecidableEq, Repr

/-- Observable actions, recorded in program order. -/
inductive Effect
  | setLevel (l : Level)
  | now (t : Int)
  | setPrev (t : Int)
  | exec (c : Command)
  | log (l : Level) (msg : String)
  | exit (code : Nat)
deriving DecidableEq, Repr

/-- The environment of one run.  `proc h c` is what running `c` returns when
the commands in `h` have been run before it (the length of `h` is the index of
the call, so any sequence of results is some `proc`); `clock n` is the `n`-th
reading of the clock, in nanoseconds. -/
structure World where
  proc : List Command → Command → ProcResult
  clock : Nat → Int

/-- Effect state threaded through the program: how many clock readings were
taken, and the trace so far. -/
structure Sys where
  ticks : Nat
  trace : List Effect
deriving DecidableEq, Repr

/-- The command of an `exec` effect. -/
def Effect.asCommand : Effect → Option Command
  | .exec c => some c
  | _ => none

/-- The timestamp of a `setPrev` effect (an assignment to `prevChangeTime`). -/
def Effect.asStamp : Effect → Option Int
  | .setPrev t => some t
  | _ => none

/-- The clock value of a `now` effect. -/
def Effect.asReading : Effect → Option Int
  | .now t => some t
  | _ => none

/-- Commands invoked in a trace, in order. -/
def commands (tr : List Effect) : List Command := tr.filterMap Effect.asCommand

/-- Values assigned to `prevChangeTime` in a trace, in order. -/
def stamps (tr : List Effect) : List Int := tr.filterMap Effect.asStamp

/-- Clock readings taken in a trace, in order. -/
def readings (tr : List Effect) : List Int := tr.filterMap Effect.asReading

/-- Append one effect to the trace. -/
def emit (s : Sys) (e : Effect) : Sys := { s with trace := s.trace ++ [e] }

/-- A log call `log.<Level>()...Msg(msg)`. -/
def logMsg (s : Sys) (l : Level) (msg : String) : Sys := emit s (.log l msg)

/-- The call `log.Fatal()...Msg(msg)`: the record, then `os.Exit(1)`. -/
def logFatal (s : Sys) (msg : String) : Sys := emit (logMsg s .fatal msg) (.exit 1)

/-! ## Time -/

/-- Largest `time.Duration` (int64 nanoseconds). -/
def maxDuration : Int := 2 ^ 63 - 1

/-- Smallest `time.Duration`. -/
def minDuration : Int := -(2 ^ 63)

/-- The constant `time.Second`, in nanoseconds. -/
def second : Int := 1000000000

/-- The quiet window `5*time.Second` of the debounce gate. -/
def quietWindow : Int := 5 * second

/-- The method `Time.Sub`: the difference, saturated to the `Duration` range. -/
def timeSub (t u : Int) : Int :=
  if t - u > maxDuration then maxDuration
  else if t - u < minDuration then minDuration
  else t - u

/-- The call `time.Now()`: takes the next clock reading. -/
def timeNow (W : World) (s : Sys) : Int × Sys :=
  (W.clock s.ticks, { ticks := s.ticks + 1, trace := s.trace ++ [.now (W.clock s.ticks)] })

/-- The call `time.Since(u)`, which is `time.Now().Sub(u)`. -/
def timeSince (W : World) (u : Int) (s : Sys) : Int × Sys :=
  (timeSub (timeNow W s).1 u, (timeNow W s).2)

/-! ## Git execution -/

/-- The function `executeCommand`: runs the command in `dir`, logs the output,
and returns the error of `cmd.Output()` (nil on success). -/
def executeCommand (W : World) (dir : String) (command : String) (args : List String)
    (s : Sys) : GoError × Sys :=
  let cmd : Command := { dir := dir, name := command, args := args }
  let r := W.proc (commands s.trace) cmd
  let s1 := emit s (.exec cmd)
  match r.err with
  | some e => (some e, logMsg s1 .error "failed to execute command")
  | none => (none, logMsg s1 .info "command executed")

/-- The function `gitAddAll`: `git add .` -/
def gitAddAll (W : World) (path : String) (s : Sys) : GoError × Sys :=
  executeCommand W path "git" ["add", "."] s

/-- The function `gitCommit`: `git commit -m "auto sync from <deviceName>"`;
the message is `fmt.Sprintf("auto sync from %s", deviceName)`. -/
def gitCommit (W : World) (path : String) (deviceName : String) (s : Sys) : GoError × Sys :=
  executeCommand W path "git" ["commit", "-m", "auto sync from " ++ deviceName] s

/-- The function `gitPush`: `git push` -/
def gitPush (W : World) (path : String) (s : Sys) : GoError × Sys :=
  executeCommand W path "git" ["push"] s

/-- The function `gitPull`: `git pull` -/
def gitPull (W : World) (path : String) (s : Sys) : GoError × Sys :=
  executeCommand W path "git" ["pull"] s

/-! ## The event loop -/

/-- The flags `path`, `device` and `level`. -/
structure Config where
  path : String
  device : String
  level : String
deriving DecidableEq, Repr

/-- An `fsnotify.Event`. -/
structure Event where
  name : String
  op : Nat
deriving DecidableEq, Repr

/-- What one `select` of the loop receives: `ctx.Done()`, a receive on
`wc.Events` or a receive on `wc.Errors`; `ok = false` is a closed channel. -/
inductive Input
  | done
  | event (event : Event) (ok : Bool)
  | error (err : GoError) (ok : Bool)
deriving DecidableEq, Repr

/-- Whether the `for` loop goes on (`continue`, or falling off the end of the
`select`) or has been left (`return`). -/
inductive Status
  | running
  | terminated
deriving DecidableEq, Repr

/-- State of the loop: the variable `prevChangeTime` and the effect state. -/
structure LoopState where
  prevChangeTime : Int
  sys : Sys
deriving DecidableEq, Repr

/-- Lines 106-123 of `main`: the four sync steps of an accepted event.  A
failed pull is logged and the body goes on; a failed add, commit or push is
logged and followed by `continue`. -/
def syncAttempt (W : World) (cfg : Config) (s : Sys) : Sys :=
  let rPull := gitPull W cfg.path s
  let s1 := match rPull.1 with
    | some _ => logMsg rPull.2 .error "failed to pull"
    | none => rPull.2
  let rAdd := gitAddAll W cfg.path s1
  match rAdd.1 with
  | some _ => logMsg rAdd.2 .error "failed to add"
  | none =>
    let rCommit := gitCommit W cfg.path cfg.device rAdd.2
    match rCommit.1 with
    | some _ => logMsg rCommit.2 .error "failed to commit"
    | none =>
      let rPush := gitPush W cfg.path rCommit.2
      match rPush.1 with
      | some _ => logMsg rPush.2 .error "failed to push"
      | none => rPush.2

/-- One iteration of the `for`/`select` loop of `main` on the given input. -/
def loopStep (W : World) (cfg : Config) (st : LoopState) : Input → Status × LoopState
  | .done => (.terminated, { st with sys := logMsg st.sys .info "exiting" })
  | .event _ ok =>
    if !ok then
      (.terminated, { st with sys := logMsg st.sys .error "watcher events channel closed" })
    else
      let since := timeSince W st.prevChangeTime st.sys
      if since.1 < quietWindow then
        (.running, { st with sys := logMsg since.2 .info "skip event" })
      else
        let now := timeNow W since.2
        let s1 := emit now.2 (.setPrev now.1)
        let s2 := logMsg s1 .info "event received"
        (.running, { prevChangeTime := now.1, sys := syncAttempt W cfg s2 })
  | .error _ ok =>
    if !ok then
      (.terminated, { st with sys := logMsg st.sys .error "watcher errors channel closed" })
    else
      (.running, { st with sys := logMsg st.sys .error "error received" })

/-- The `for` loop of `main` fed with a finite sequence of inputs: it stops at
the first step that returns, and is still running (blocked in `select`) when
the inputs are used up. -/
def runLoop (W : World) (cfg : Config) (st : LoopState) : List Input → Status × LoopState
  | [] => (.running, st)
  | i :: rest =>
    match loopStep W cfg st i with
    | (.terminated, st1) => (.terminated, st1)
    | (.running, st1) => runLoop W cfg st1 rest

/-! ## The function `main` -/

/-- The `switch *level` of `main`: the global log level. -/
def globalLevel (level : String) : Level :=
  if level = "debug" then .debug
  else if level = "info" then .info
  else if level = "warn" then .warn
  else if level = "error" then .error
  else .fatal

/-- Results of the watcher calls `fsnotify.NewWatcher()`, `wc.Add(*path)` and
the deferred `wc.Close()`. -/
structure Setup where
  newWatcherErr : GoError
  addErr : GoError
  closeErr : GoError
deriving DecidableEq, Repr

/-- How a run of `main` on a finite input sequence ends: `os.Exit(code)` from
a fatal log call, a return from `main`, or still waiting in `select`. -/
inductive Outcome
  | exited (code : Nat)
  | returned
  | waiting
deriving DecidableEq, Repr

/-- The effect state at process start. -/
def Sys.init : Sys := { ticks := 0, trace := [] }

/-- The state in which `main` enters the loop, from the state after the
startup pull: line 85, `prevChangeTime := time.Now()`. -/
def enterLoop (W : World) (s : Sys) : LoopState :=
  { prevChangeTime := (timeNow W s).1, sys := emit (timeNow W s).2 (.setPrev (timeNow W s).1) }

/-- The function `main`, run on the inputs the loop receives. -/
def main (W : World) (cfg : Config) (setup : Setup) (inputs : List Input) : Outcome × Sys :=
  let s0 := emit Sys.init (.setLevel (globalLevel cfg.level))
  match setup.newWatcherErr with
  | some _ => (.exited 1, logFatal s0 "failed to create watcher")
  | none =>
    match setup.addErr with
    | some _ => (.exited 1, logFatal s0 "failed to add watch")
    | none =>
      let rPull := gitPull W cfg.path s0
      match rPull.1 with
      | some _ => (.exited 1, logFatal rPull.2 "failed to pull")
      | none =>
        match runLoop W cfg (enterLoop W rPull.2) inputs with
        | (.running, st) => (.waiting, st.sys)
        | (.terminated, st) =>
          match setup.closeErr with
          | some _ => (.exited 1, logFatal st.sys "failed to close watcher")
          | none => (.returned, st.sys)

/-! ## Fixtures -/

/-- The four commands of a sync attempt. -/
def pullCmd (path : String) : Command := { dir := path, name := "git", args := ["pull"] }

/-- The command `git add .` in `path`. -/
def addCmd (path : String) : Command := { dir := path, name := "git", args := ["add", "."] }

/-- The command `git commit -m "auto sync from <device>"` in `path`. -/
def commitCmd (path device : String) : Command :=
  { dir := path, name := "git", args := ["commit", "-m", "auto sync from " ++ device] }

/-- The command `git push` in `path`. -/
def pushCmd (path : String) : Command := { dir := path, name := "git", args := ["push"] }

/-- A world whose `git` subcommands return scripted results whatever ran
before, with the given clock. -/
def scripted (rPull rAdd rCommit rPush : GoError) (clock : Nat → Int) : World where
  proc := fun _ c =>
    match c.args with
    | "pull" :: _ => { output := "", err := rPull }
    | "add" :: _ => { output := "", err := rAdd }
    | "commit" :: _ => { output := "", err := rCommit }
    | _ => { output := "", err := rPush }
  clock := clock

/-- A clock that advances by `step` nanoseconds per reading from `start`. -/
def linearClock (start step : Int) : Nat → Int := fun n => start + step * n

/-- The default flags of the program. -/
def defaultConfig : Config := { path := ".", device := "my-device", level := "off" }

/-- The commands of one sync attempt as the specification words them: Pull,
then StageAll, then Commit when StageAll succeeded, then Push when Commit
succeeded as well. -/
def attemptCommands (path device : String) (rAdd rCommit : GoError) : List Command :=
  [pullCmd path, addCmd path] ++
    (if rAdd = none then
      commitCmd path device :: (if rCommit = none then [pushCmd path] else [])
    else [])

/-- The result the world gives to `c` after the commands `h`. -/
def resultOf (W : World) (h : List Command) (c : Command) : GoError := (W.proc h c).err

/-! ## Lemmas on traces -/

@[simp] theorem commands_nil : commands [] = [] := rfl

@[simp] theorem commands_append (a b : List Effect) :
    commands (a ++ b) = commands a ++ commands b := by
  simp [commands, List.filterMap_append]

@[simp] theorem commands_cons_exec (c : Command) (tr : List Effect) :
    commands (.exec c :: tr) = c :: commands tr := by
  simp [commands, Effect.asCommand]

@[simp] theorem commands_cons_log (l : Level) (m : String) (tr : List Effect) :
    commands (.log l m :: tr) = commands tr := by
  simp [commands, Effect.asCommand]

@[simp] theorem commands_cons_now (t : Int) (tr : List Effect) :
    commands (.now t :: tr) = commands tr := by
  simp [commands, Effect.asCommand]

@[simp] theorem commands_cons_setPrev (t : Int) (tr : List Effect) :
    commands (.setPrev t :: tr) = commands tr := by
  simp [commands, Effect.asCommand]

@[simp] theorem commands_cons_setLevel (l : Level) (tr : List Effect) :
    commands (.setLevel l :: tr) = commands tr := by
  simp [commands, Effect.asCommand]

@[simp] theorem commands_cons_exit (n : Nat) (tr : List Effect) :
    commands (.exit n :: tr) = commands tr := by
  simp [commands, Effect.asCommand]

@[simp] theorem stamps_nil : stamps [] = [] := rfl

@[simp] theorem stamps_append (a b : List Effect) :
    stamps (a ++ b) = stamps a ++ stamps b := by
  simp [stamps, List.filterMap_append]

@[simp] theorem stamps_cons_exec (c : Command) (tr : List Effect) :
    stamps (.exec c :: tr) = stamps tr := by
  simp [stamps, Effect.asStamp]

@[simp] theorem stamps_cons_log (l : Level) (m : String) (tr : List Effect) :
    stamps (.log l m :: tr) = stamps tr := by
  simp [stamps, Effect.asStamp]

@[simp] theorem stamps_cons_now (t : Int) (tr : List Effect) :
    stamps (.now t :: tr) = stamps tr := by
  simp [stamps, Effect.asStamp]

@[simp] theorem stamps_cons_setPrev (t : Int) (tr : List Effect) :
    stamps (.setPrev t :: tr) = t :: stamps tr := by
  simp [stamps, Effect.asStamp]

@[simp] theorem stamps_cons_setLevel (l : Level) (tr : List Effect) :
    stamps (.setLevel l :: tr) = stamps tr := by
  simp [stamps, Effect.asStamp]

@[simp] theorem readings_nil : readings [] = [] := rfl

@[simp] theorem readings_append (a b : List Effect) :
    readings (a ++ b) = readings a ++ readings b := by
  simp [readings, List.filterMap_append]

@[simp] theorem readings_cons_exec (c : Command) (tr : List Effect) :
    readings (.exec c :: tr) = readings tr := by
  simp [readings, Effect.asReading]

@[simp] theorem readings_cons_log (l : Level) (m : String) (tr : List Effect) :
    readings (.log l m :: tr) = readings tr := by
  simp [readings, Effect.asReading]

@[simp] theorem readings_cons_now (t : Int) (tr : List Effect) :
    readings (.now t :: tr) = t :: readings tr := by
  simp [readings, Effect.asReading]

@[simp] theorem readings_cons_setPrev (t : Int) (tr : List Effect) :
    readings (.setPrev t :: tr) = readings tr := by
  simp [readings, Effect.asReading]

/-- The gate compares the true difference: saturation of `Time.Sub` never
changes the comparison with the quiet window. -/
theorem timeSub_lt_quietWindow (t u : Int) :
    timeSub t u < quietWindow ↔ t - u < quietWindow := by
  unfold timeSub quietWindow second maxDuration minDuration
  split_ifs <;> constructor <;> intro h <;> omega

/-- The function `executeCommand` returns what the world returns for the
command. -/
theorem executeCommand_fst (W : World) (d c : String) (a : List String) (s : Sys) :
    (executeCommand W d c a s).1 = resultOf W (commands s.trace) ⟨d, c, a⟩ := by
  unfold executeCommand resultOf
  cases h : (W.proc (commands s.trace) ⟨d, c, a⟩).err <;> simp [h]

/-- The function `executeCommand` adds the invocation and one log record to
the trace and takes no clock reading. -/
theorem executeCommand_snd (W : World) (d c : String) (a : List String) (s : Sys) :
    ∃ l m, (executeCommand W d c a s).2 =
      ⟨s.ticks, s.trace ++ [.exec ⟨d, c, a⟩, .log l m]⟩ := by
  unfold executeCommand
  cases h : (W.proc (commands s.trace) ⟨d, c, a⟩).err
  · exact ⟨.info, "command executed", by simp [h, logMsg, emit]⟩
  · exact ⟨.error, "failed to execute command", by simp [h, logMsg, emit]⟩

/-- Shape of one sync attempt: it starts with Pull, invokes exactly the
commands of `attemptCommands` for the results the world gives to StageAll and
Commit, reads no clock and assigns no timestamp. -/
theorem syncAttempt_spec (W : World) (cfg : Config) (s : Sys) :
    ∃ rest, syncAttempt W cfg s = ⟨s.ticks, s.trace ++ .exec (pullCmd cfg.path) :: rest⟩ ∧
      pullCmd cfg.path :: commands rest = attemptCommands cfg.path cfg.device
        (resultOf W (commands s.trace ++ [pullCmd cfg.path]) (addCmd cfg.path))
        (resultOf W (commands s.trace ++ [pullCmd cfg.path, addCmd cfg.path])
          (commitCmd cfg.path cfg.device)) ∧
      stamps rest = [] ∧ readings rest = [] := by
  cases hP : (W.proc (commands s.trace) (pullCmd cfg.path)).err <;>
  cases hA : (W.proc (commands s.trace ++ [pullCmd cfg.path]) (addCmd cfg.path)).err <;>
  cases hC : (W.proc (commands s.trace ++ [pullCmd cfg.path, addCmd cfg.path])
      (commitCmd cfg.path cfg.device)).err <;>
  cases hU : (W.proc (commands s.trace ++ [pullCmd cfg.path, addCmd cfg.path,
      commitCmd cfg.path cfg.device]) (pushCmd cfg.path)).err <;>
  simp [pullCmd, addCmd, commitCmd, pushCmd] at hP hA hC hU <;>
  refine ⟨(syncAttempt W cfg s).trace.drop (s.trace.length + 1), ?_, ?_, ?_, ?_⟩ <;>
  simp [syncAttempt, gitPull, gitAddAll, gitCommit, gitPush, executeCommand, logMsg, emit,
    hP, hA, hC, hU, pullCmd, addCmd, commitCmd, pushCmd, attemptCommands, resultOf]

/-- A change event on an open channel whose gate reading is inside the quiet
window is skipped: one clock reading, one log record. -/
theorem loopStep_skip (W : World) (cfg : Config) (st : LoopState) (ev : Event)
    (h : W.clock st.sys.ticks - st.prevChangeTime < quietWindow) :
    loopStep W cfg st (.event ev true) =
      (.running, ⟨st.prevChangeTime, ⟨st.sys.ticks + 1,
        st.sys.trace ++ [.now (W.clock st.sys.ticks), .log .info "skip event"]⟩⟩) := by
  have h1 := (timeSub_lt_quietWindow (W.clock st.sys.ticks) st.prevChangeTime).2 h
  simp [loopStep, timeSince, timeNow, h1, logMsg, emit]

/-- A change event on an open channel whose gate reading is at or past the
quiet window is accepted: a second clock reading becomes the timestamp and
the sync attempt runs from there. -/
theorem loopStep_accept (W : World) (cfg : Config) (st : LoopState) (ev : Event)
    (h : quietWindow ≤ W.clock st.sys.ticks - st.prevChangeTime) :
    loopStep W cfg st (.event ev true) =
      (.running, ⟨W.clock (st.sys.ticks + 1), syncAttempt W cfg ⟨st.sys.ticks + 2,
        st.sys.trace ++ [.now (W.clock st.sys.ticks), .now (W.clock (st.sys.ticks + 1)),
          .setPrev (W.clock (st.sys.ticks + 1)), .log .info "event received"]⟩⟩) := by
  have h1 : ¬ timeSub (W.clock st.sys.ticks) st.prevChangeTime < quietWindow := by
    rw [timeSub_lt_quietWindow]; omega
  simp [loopStep, timeSince, timeNow, h1, logMsg, emit]

/-- A run of change events that are all read inside the quiet window leaves
the loop running with the same timestamp and adds only readings and logs. -/
theorem runLoop_suppressed (W : World) (cfg : Config) (evs : List Event) :
    ∀ st : LoopState,
      (∀ i, i < evs.length → W.clock (st.sys.ticks + i) - st.prevChangeTime < quietWindow) →
      (runLoop W cfg st (evs.map fun e => Input.event e true)).1 = .running ∧
      (runLoop W cfg st (evs.map fun e => Input.event e true)).2.prevChangeTime
        = st.prevChangeTime ∧
      (runLoop W cfg st (evs.map fun e => Input.event e true)).2.sys.ticks
        = st.sys.ticks + evs.length ∧
      commands (runLoop W cfg st (evs.map fun e => Input.event e true)).2.sys.trace
        = commands st.sys.trace ∧
      stamps (runLoop W cfg st (evs.map fun e => Input.event e true)).2.sys.trace
        = stamps st.sys.trace := by
  induction evs with
  | nil => intro st _; simp [runLoop]
  | cons e es ih =>
    intro st h
    have h0 : W.clock st.sys.ticks - st.prevChangeTime < quietWindow := by
      simpa using h 0 (by simp)
    have hs := loopStep_skip W cfg st e h0
    have ih1 := ih ⟨st.prevChangeTime, ⟨st.sys.ticks + 1,
        st.sys.trace ++ [.now (W.clock st.sys.ticks), .log .info "skip event"]⟩⟩ (by
      intro i hi
      have := h (i + 1) (by simpa using hi)
      simpa [Nat.add_assoc, Nat.add_comm 1 i] using this)
    simp only [List.map_cons, runLoop, hs]
    obtain ⟨a, b, c, d, f⟩ := ih1
    refine ⟨a, b, ?_, ?_, ?_⟩
    · simp [c]; omega
    · simpa using d
    · simpa using f

@[simp] theorem stamps_cons_exit (n : Nat) (tr : List Effect) :
    stamps (.exit n :: tr) = stamps tr := by
  simp [stamps, Effect.asStamp]

/-- Chains of spaced timestamps compose: a chain from `p` followed by a chain
from its last element is a chain from `p`. -/
theorem chain_spaced_append (l1 l2 : List Int) :
    ∀ p : Int, List.Chain (fun a b => a + quietWindow ≤ b) p l1 →
      List.Chain (fun a b => a + quietWindow ≤ b) (l1.getLastD p) l2 →
      List.Chain (fun a b => a + quietWindow ≤ b) p (l1 ++ l2) ∧
        (l1 ++ l2).getLastD p = l2.getLastD (l1.getLastD p) := by
  induction l1 with
  | nil => intro p _ h2; simpa using h2
  | cons a l ih =>
    intro p h1 h2
    rw [List.chain_cons] at h1
    have h3 : (a :: l).getLastD p = l.getLastD a := by
      cases l <;> simp [List.getLastD]
    rw [h3] at h2
    obtain ⟨c, d⟩ := ih a h1.2 h2
    refine ⟨?_, ?_⟩
    · simpa using ⟨h1.1, c⟩
    · rw [h3, ← d]
      cases hl : l ++ l2 <;> simp [List.getLastD, hl]

/-- The last element of a chain of spaced timestamps is not before its start. -/
theorem chain_spaced_le (l : List Int) :
    ∀ p : Int, List.Chain (fun a b => a + quietWindow ≤ b) p l → p ≤ l.getLastD p := by
  induction l with
  | nil => intro p _; simp
  | cons a l ih =>
    intro p h
    rw [List.chain_cons] at h
    have h3 : (a :: l).getLastD p = l.getLastD a := by
      cases l <;> simp [List.getLastD]
    have := ih a h.2
    have hq : (0 : Int) ≤ quietWindow := by decide
    rw [h3]; omega

/-- One loop step assigns at most one timestamp; when it does, the new one is
at least the quiet window after the old one (monotone clock). -/
theorem loopStep_stamps (W : World) (cfg : Config) (hmono : Monotone W.clock)
    (st : LoopState) (i : Input) :
    ∃ new, stamps (loopStep W cfg st i).2.sys.trace = stamps st.sys.trace ++ new ∧
      List.Chain (fun a b => a + quietWindow ≤ b) st.prevChangeTime new ∧
      (loopStep W cfg st i).2.prevChangeTime = new.getLastD st.prevChangeTime := by
  cases i with
  | done => exact ⟨[], by simp [loopStep, logMsg, emit]⟩
  | error e ok => cases ok <;> exact ⟨[], by simp [loopStep, logMsg, emit]⟩
  | event ev ok =>
    cases ok with
    | false => exact ⟨[], by simp [loopStep, logMsg, emit]⟩
    | true =>
      by_cases h : W.clock st.sys.ticks - st.prevChangeTime < quietWindow
      · exact ⟨[], by simp [loopStep_skip W cfg st ev h]⟩
      · have hacc : quietWindow ≤ W.clock st.sys.ticks - st.prevChangeTime := by omega
        have hm : W.clock st.sys.ticks ≤ W.clock (st.sys.ticks + 1) :=
          hmono (Nat.le_succ _)
        obtain ⟨rest, h1, _, h3, _⟩ := syncAttempt_spec W cfg ⟨st.sys.ticks + 2,
          st.sys.trace ++ [.now (W.clock st.sys.ticks), .now (W.clock (st.sys.ticks + 1)),
            .setPrev (W.clock (st.sys.ticks + 1)), .log .info "event received"]⟩
        refine ⟨[W.clock (st.sys.ticks + 1)], ?_, ?_, ?_⟩
        · rw [loopStep_accept W cfg st ev hacc]
          simp [h1, h3]
        · simp; omega
        · rw [loopStep_accept W cfg st ev hacc]
          simp

/-- Along any run of the loop the assigned timestamps form a chain spaced by
the quiet window, starting from the timestamp the run started with, and the
variable holds the last of them (monotone clock). -/
theorem runLoop_stamps (W : World) (cfg : Config) (hmono : Monotone W.clock)
    (inputs : List Input) :
    ∀ st : LoopState,
      ∃ new, stamps (runLoop W cfg st inputs).2.sys.trace = stamps st.sys.trace ++ new ∧
        List.Chain (fun a b => a + quietWindow ≤ b) st.prevChangeTime new ∧
        (runLoop W cfg st inputs).2.prevChangeTime = new.getLastD st.prevChangeTime := by
  induction inputs with
  | nil => intro st; exact ⟨[], by simp [runLoop]⟩
  | cons i is ih =>
    intro st
    obtain ⟨n1, a1, b1, c1⟩ := loopStep_stamps W cfg hmono st i
    rcases hs : loopStep W cfg st i with ⟨o, st1⟩
    rw [hs] at a1 c1
    cases o with
    | terminated =>
      refine ⟨n1, ?_, b1, ?_⟩
      · simp only [runLoop, hs]; exact a1
      · simp only [runLoop, hs]; exact c1
    | running =>
      obtain ⟨n2, a2, b2, c2⟩ := ih st1
      simp only at a1 c1
      rw [c1] at b2
      obtain ⟨d, e⟩ := chain_spaced_append n1 n2 st.prevChangeTime b1 b2
      refine ⟨n1 ++ n2, ?_, d, ?_⟩
      · simp only [runLoop, hs]; rw [a2, a1, List.append_assoc]
      · simp only [runLoop, hs]; rw [c2, c1, e]

/-- The timestamps `main` assigns: none when it exits before the loop,
otherwise the loop's start reading followed by a chain spaced by the quiet
window (monotone clock). -/
theorem main_stamps (W : World) (cfg : Config) (setup : Setup) (inputs : List Input)
    (hmono : Monotone W.clock) :
    stamps (main W cfg setup inputs).2.trace = [] ∨
    ∃ new, stamps (main W cfg setup inputs).2.trace = W.clock 0 :: new ∧
      List.Chain (fun a b => a + quietWindow ≤ b) (W.clock 0) new := by
  obtain ⟨l, m, hg⟩ := executeCommand_snd W cfg.path "git" ["pull"]
    (emit Sys.init (.setLevel (globalLevel cfg.level)))
  have hg1 : (gitPull W cfg.path (emit Sys.init (.setLevel (globalLevel cfg.level)))).2 =
      ⟨0, [.setLevel (globalLevel cfg.level), .exec ⟨cfg.path, "git", ["pull"]⟩, .log l m]⟩ := by
    rw [gitPull, hg]; simp [emit, Sys.init]
  unfold main
  cases hN : setup.newWatcherErr with
  | some _ => left; simp [logFatal, logMsg, emit, Sys.init]
  | none =>
    cases hA : setup.addErr with
    | some _ => left; simp [logFatal, logMsg, emit, Sys.init]
    | none =>
      cases hP : (gitPull W cfg.path (emit Sys.init (.setLevel (globalLevel cfg.level)))).1 with
      | some _ =>
        left
        simp only [hP, hg1, logFatal, logMsg]
        simp [emit]
      | none =>
        right
        obtain ⟨new, a, b, c⟩ := runLoop_stamps W cfg hmono inputs
          (enterLoop W (gitPull W cfg.path (emit Sys.init (.setLevel (globalLevel cfg.level)))).2)
        have hp : (enterLoop W (gitPull W cfg.path
            (emit Sys.init (.setLevel (globalLevel cfg.level)))).2).prevChangeTime = W.clock 0 := by
          rw [hg1]; rfl
        have ht : stamps (enterLoop W (gitPull W cfg.path
            (emit Sys.init (.setLevel (globalLevel cfg.level)))).2).sys.trace = [W.clock 0] := by
          rw [hg1]; simp [enterLoop, timeNow, emit]
        rw [hp] at b
        rw [ht] at a
        refine ⟨new, ?_, b⟩
        simp only [hP]
        rcases hr : runLoop W cfg (enterLoop W (gitPull W cfg.path
            (emit Sys.init (.setLevel (globalLevel cfg.level)))).2) inputs with ⟨o, st⟩
        rw [hr] at a
        cases o with
        | running => simpa using a
        | terminated =>
          cases hc : setup.closeErr with
          | none => simpa using a
          | some _ => simpa [logFatal, logMsg, emit] using a

/-! ## Claims -/

/-- C1 (evaluation at the failing input): an accepted change event whose Pull
fails.  The loop body goes on after the failed Pull and invokes StageAll,
Commit and Push as well, where the claim says none of them is invoked. -/
theorem failed_pull_does_not_abort_attempt :
    resultOf (scripted (some "exit status 1") none none none (linearClock 0 6000000000)) []
        (pullCmd ".") = some "exit status 1" ∧
    commands (loopStep (scripted (some "exit status 1") none none none
        (linearClock 0 6000000000)) defaultConfig ⟨0, ⟨1, []⟩⟩
        (.event ⟨"notes.txt", 2⟩ true)).2.sys.trace
      = [pullCmd ".", addCmd ".", commitCmd "." "my-device", pushCmd "."] := by
  decide

/-- C2: a change event on an open channel read less than 5 seconds after the
last accepted timestamp `p` is skipped (the step only reads the clock and
logs: no command, timestamp still `p`, loop running), and after any finite run
of such events, all read within 5 seconds of `p`, no command has been invoked,
no timestamp assigned and the timestamp is still `p`. -/
theorem quiet_window_suppresses (W : World) (cfg : Config) (st : LoopState) (ev : Event)
    (evs : List Event)
    (hev : W.clock st.sys.ticks - st.prevChangeTime < 5 * second)
    (hevs : ∀ i, i < evs.length →
      W.clock (st.sys.ticks + i) - st.prevChangeTime < 5 * second) :
    (loopStep W cfg st (.event ev true) =
      (.running, ⟨st.prevChangeTime, ⟨st.sys.ticks + 1,
        st.sys.trace ++ [.now (W.clock st.sys.ticks), .log .info "skip event"]⟩⟩) ∧
     commands (loopStep W cfg st (.event ev true)).2.sys.trace = commands st.sys.trace) ∧
    ((runLoop W cfg st (evs.map fun e => Input.event e true)).1 = .running ∧
     (runLoop W cfg st (evs.map fun e => Input.event e true)).2.prevChangeTime
        = st.prevChangeTime ∧
     commands (runLoop W cfg st (evs.map fun e => Input.event e true)).2.sys.trace
        = commands st.sys.trace ∧
     stamps (runLoop W cfg st (evs.map fun e => Input.event e true)).2.sys.trace
        = stamps st.sys.trace) := by
  have hs := loopStep_skip W cfg st ev hev
  obtain ⟨a, b, _, d, f⟩ := runLoop_suppressed W cfg evs st hevs
  refine ⟨⟨hs, ?_⟩, a, b, d, f⟩
  rw [hs]; simp

/-- Witness for C2: last accepted timestamp 0, clock readings 1 s apart, one
event read at 1 s and then three events read at 1 s, 2 s and 3 s. -/
theorem quiet_window_suppresses_witness :
    (loopStep (scripted none none none none (linearClock 0 1000000000)) defaultConfig
        ⟨0, ⟨1, []⟩⟩ (.event ⟨"notes.txt", 2⟩ true) =
      (.running, ⟨0, ⟨2, [.now 1000000000, .log .info "skip event"]⟩⟩) ∧
     commands (loopStep (scripted none none none none (linearClock 0 1000000000)) defaultConfig
        ⟨0, ⟨1, []⟩⟩ (.event ⟨"notes.txt", 2⟩ true)).2.sys.trace = []) ∧
    ((runLoop (scripted none none none none (linearClock 0 1000000000)) defaultConfig
        ⟨0, ⟨1, []⟩⟩ ([⟨"a", 2⟩, ⟨"b", 2⟩, ⟨"c", 1⟩].map fun e => Input.event e true)).1
        = .running ∧
     (runLoop (scripted none none none none (linearClock 0 1000000000)) defaultConfig
        ⟨0, ⟨1, []⟩⟩ ([⟨"a", 2⟩, ⟨"b", 2⟩, ⟨"c", 1⟩].map fun e => Input.event e true)).2.prevChangeTime
        = 0 ∧
     commands (runLoop (scripted none none none none (linearClock 0 1000000000)) defaultConfig
        ⟨0, ⟨1, []⟩⟩ ([⟨"a", 2⟩, ⟨"b", 2⟩, ⟨"c", 1⟩].map fun e => Input.event e true)).2.sys.trace
        = [] ∧
     stamps (runLoop (scripted none none none none (linearClock 0 1000000000)) defaultConfig
        ⟨0, ⟨1, []⟩⟩ ([⟨"a", 2⟩, ⟨"b", 2⟩, ⟨"c", 1⟩].map fun e => Input.event e true)).2.sys.trace
        = []) :=
  quiet_window_suppresses (scripted none none none none (linearClock 0 1000000000))
    defaultConfig ⟨0, ⟨1, []⟩⟩ ⟨"notes.txt", 2⟩ [⟨"a", 2⟩, ⟨"b", 2⟩, ⟨"c", 1⟩]
    (by decide) (by
      intro i hi
      have h3 : i < 3 := by simpa using hi
      interval_cases i <;> decide)

/-- C3: a change event on an open channel read at `t` with `t - p ≥ 5 s`
(the boundary `t - p = 5 s` included) is accepted.  The step reads the clock,
reads it again, assigns that reading to the timestamp, logs, and only then
invokes Pull; nothing after that Pull is another Pull, a clock reading or a
timestamp assignment, so the step starts exactly one attempt and ends with the
timestamp equal to the acceptance reading. -/
theorem elapsed_window_accepts (W : World) (cfg : Config) (st : LoopState) (ev : Event)
    (hacc : 5 * second ≤ W.clock st.sys.ticks - st.prevChangeTime) :
    ∃ rest,
      (loopStep W cfg st (.event ev true)).1 = .running ∧
      (loopStep W cfg st (.event ev true)).2.sys.trace =
        st.sys.trace ++ [.now (W.clock st.sys.ticks), .now (W.clock (st.sys.ticks + 1)),
          .setPrev (W.clock (st.sys.ticks + 1)), .log .info "event received",
          .exec (pullCmd cfg.path)] ++ rest ∧
      (commands rest).count (pullCmd cfg.path) = 0 ∧
      stamps rest = [] ∧ readings rest = [] ∧
      (loopStep W cfg st (.event ev true)).2.prevChangeTime = W.clock (st.sys.ticks + 1) := by
  have hs := loopStep_accept W cfg st ev hacc
  obtain ⟨rest, h1, h2, h3, h4⟩ := syncAttempt_spec W cfg ⟨st.sys.ticks + 2,
    st.sys.trace ++ [.now (W.clock st.sys.ticks), .now (W.clock (st.sys.ticks + 1)),
      .setPrev (W.clock (st.sys.ticks + 1)), .log .info "event received"]⟩
  refine ⟨rest, ?_, ?_, ?_, h3, h4, ?_⟩
  · rw [hs]
  · rw [hs]; simp [h1]
  · have h5 : commands rest = (attemptCommands cfg.path cfg.device
        (resultOf W (commands st.sys.trace ++ [pullCmd cfg.path]) (addCmd cfg.path))
        (resultOf W (commands st.sys.trace ++ [pullCmd cfg.path, addCmd cfg.path])
          (commitCmd cfg.path cfg.device))).tail := by
      simp at h2
      rw [← h2]; rfl
    rw [h5, List.count_eq_zero]
    unfold attemptCommands pullCmd addCmd commitCmd pushCmd
    split_ifs <;> simp
  · rw [hs]

/-- Witness for C3: the event is read exactly 5 s after the timestamp. -/
theorem elapsed_window_accepts_witness :
    5 * second ≤ (scripted none none none none (linearClock 0 5000000000)).clock 1 - 0 ∧
    ∃ rest,
      (loopStep (scripted none none none none (linearClock 0 5000000000)) defaultConfig
        ⟨0, ⟨1, []⟩⟩ (.event ⟨"notes.txt", 2⟩ true)).1 = .running ∧
      (loopStep (scripted none none none none (linearClock 0 5000000000)) defaultConfig
        ⟨0, ⟨1, []⟩⟩ (.event ⟨"notes.txt", 2⟩ true)).2.sys.trace =
        [] ++ [.now 5000000000, .now 10000000000, .setPrev 10000000000,
          .log .info "event received", .exec (pullCmd ".")] ++ rest ∧
      (commands rest).count (pullCmd ".") = 0 ∧
      stamps rest = [] ∧ readings rest = [] ∧
      (loopStep (scripted none none none none (linearClock 0 5000000000)) defaultConfig
        ⟨0, ⟨1, []⟩⟩ (.event ⟨"notes.txt", 2⟩ true)).2.prevChangeTime = 10000000000 :=
  ⟨by decide, elapsed_window_accepts (scripted none none none none (linearClock 0 5000000000))
    defaultConfig ⟨0, ⟨1, []⟩⟩ ⟨"notes.txt", 2⟩ (by decide)⟩

/-- C4: in an accepted change event where StageAll succeeds and Commit returns
an error (whatever Pull returned), the step invokes exactly Pull, StageAll and
Commit, so Push is not invoked; the loop is still running and goes on with the
next input. -/
theorem failed_commit_skips_push (W : World) (cfg : Config) (st : LoopState) (ev : Event)
    (next : List Input)
    (hacc : 5 * second ≤ W.clock st.sys.ticks - st.prevChangeTime)
    (hAdd : resultOf W (commands st.sys.trace ++ [pullCmd cfg.path]) (addCmd cfg.path) = none)
    (hCommit : resultOf W (commands st.sys.trace ++ [pullCmd cfg.path, addCmd cfg.path])
      (commitCmd cfg.path cfg.device) ≠ none) :
    commands (loopStep W cfg st (.event ev true)).2.sys.trace =
      commands st.sys.trace ++ [pullCmd cfg.path, addCmd cfg.path, commitCmd cfg.path cfg.device] ∧
    pushCmd cfg.path ∉ [pullCmd cfg.path, addCmd cfg.path, commitCmd cfg.path cfg.device] ∧
    (loopStep W cfg st (.event ev true)).1 = .running ∧
    runLoop W cfg st (.event ev true :: next) =
      runLoop W cfg (loopStep W cfg st (.event ev true)).2 next := by
  have hs := loopStep_accept W cfg st ev hacc
  obtain ⟨rest, h1, h2, _, _⟩ := syncAttempt_spec W cfg ⟨st.sys.ticks + 2,
    st.sys.trace ++ [.now (W.clock st.sys.ticks), .now (W.clock (st.sys.ticks + 1)),
      .setPrev (W.clock (st.sys.ticks + 1)), .log .info "event received"]⟩
  simp only [commands_append, commands_cons_now, commands_cons_setPrev, commands_cons_log,
    commands_nil, List.append_nil] at h2
  rw [hAdd] at h2
  refine ⟨?_, ?_, ?_, ?_⟩
  · rw [hs]
    simp only [h1, commands_append, commands_cons_now, commands_cons_setPrev,
      commands_cons_log, commands_cons_exec, commands_nil, List.append_nil]
    rw [h2]
    simp [attemptCommands, hCommit]
  · simp [pullCmd, addCmd, commitCmd, pushCmd]
  · rw [hs]
  · simp only [runLoop, hs]

/-- Witness for C4: Pull fails too, StageAll succeeds, Commit fails. -/
theorem failed_commit_skips_push_witness :
    commands (loopStep (scripted (some "exit status 1") none (some "exit status 1") none
        (linearClock 0 6000000000)) defaultConfig ⟨0, ⟨1, []⟩⟩
        (.event ⟨"notes.txt", 2⟩ true)).2.sys.trace =
      [] ++ [pullCmd ".", addCmd ".", commitCmd "." "my-device"] ∧
    pushCmd "." ∉ [pullCmd ".", addCmd ".", commitCmd "." "my-device"] ∧
    (loopStep (scripted (some "exit status 1") none (some "exit status 1") none
        (linearClock 0 6000000000)) defaultConfig ⟨0, ⟨1, []⟩⟩
        (.event ⟨"notes.txt", 2⟩ true)).1 = .running ∧
    runLoop (scripted (some "exit status 1") none (some "exit status 1") none
        (linearClock 0 6000000000)) defaultConfig ⟨0, ⟨1, []⟩⟩
        (.event ⟨"notes.txt", 2⟩ true :: [.done]) =
      runLoop (scripted (some "exit status 1") none (some "exit status 1") none
        (linearClock 0 6000000000)) defaultConfig
        (loopStep (scripted (some "exit status 1") none (some "exit status 1") none
          (linearClock 0 6000000000)) defaultConfig ⟨0, ⟨1, []⟩⟩
          (.event ⟨"notes.txt", 2⟩ true)).2 [.done] :=
  failed_commit_skips_push (scripted (some "exit status 1") none (some "exit status 1") none
    (linearClock 0 6000000000)) defaultConfig ⟨0, ⟨1, []⟩⟩ ⟨"notes.txt", 2⟩ [.done]
    (by decide) (by decide) (by decide)

/-- C5: once the watcher is set up, `main` invokes Pull before anything else.
When that Pull fails the run is a fatal exit whose trace holds that single
command, no clock reading and no timestamp, whatever the inputs are (none of
them is processed); when it succeeds the timestamp is initialised from the
first clock reading after it and the loop is entered in that state, with Pull
the only command so far. -/
theorem startup_pull_once_then_fatal (W : World) (cfg : Config) (setup : Setup)
    (inputs : List Input)
    (hNew : setup.newWatcherErr = none) (hAdd : setup.addErr = none) :
    match resultOf W [] (pullCmd cfg.path) with
    | some _ =>
      main W cfg setup inputs = (.exited 1, ⟨0, [.setLevel (globalLevel cfg.level),
        .exec (pullCmd cfg.path), .log .error "failed to execute command",
        .log .fatal "failed to pull", .exit 1]⟩)
    | none =>
      main W cfg setup inputs =
        match runLoop W cfg ⟨W.clock 0, ⟨1, [.setLevel (globalLevel cfg.level),
            .exec (pullCmd cfg.path), .log .info "command executed",
            .now (W.clock 0), .setPrev (W.clock 0)]⟩⟩ inputs, setup.closeErr with
        | (.running, st), _ => (.waiting, st.sys)
        | (.terminated, st), some _ => (.exited 1, logFatal st.sys "failed to close watcher")
        | (.terminated, st), none => (.returned, st.sys) := by
  cases hP : resultOf W [] (pullCmd cfg.path) with
  | some e =>
    have hP1 : (W.proc [] ⟨cfg.path, "git", ["pull"]⟩).err = some e := hP
    simp [main, hNew, hAdd, gitPull, executeCommand, Sys.init, emit, logMsg, logFatal, hP1,
      pullCmd]
  | none =>
    have hP1 : (W.proc [] ⟨cfg.path, "git", ["pull"]⟩).err = none := hP
    simp only [main, hNew, hAdd, gitPull, executeCommand, Sys.init, emit, logMsg, hP1,
      enterLoop, timeNow, pullCmd, commands_cons_setLevel, commands_nil, List.nil_append,
      List.cons_append, List.append_nil]
    rcases hr : runLoop W cfg ⟨W.clock 0, ⟨1, [.setLevel (globalLevel cfg.level),
          .exec ⟨cfg.path, "git", ["pull"]⟩, .log .info "command executed",
          .now (W.clock 0), .setPrev (W.clock 0)]⟩⟩ inputs with ⟨o, st⟩
    cases o <;> cases hc : setup.closeErr <;> simp [hr, hc]

/-- Witness for C5: the startup Pull fails; a change event and a cancellation
are pending and neither is processed. -/
theorem startup_pull_once_then_fatal_witness :
    main (scripted (some "exit status 1") none none none (linearClock 0 6000000000))
        defaultConfig ⟨none, none, none⟩ [.event ⟨"notes.txt", 2⟩ true, .done] =
      (.exited 1, ⟨0, [.setLevel .fatal, .exec (pullCmd "."),
        .log .error "failed to execute command", .log .fatal "failed to pull", .exit 1]⟩) :=
  startup_pull_once_then_fatal
    (scripted (some "exit status 1") none none none (linearClock 0 6000000000))
    defaultConfig ⟨none, none, none⟩ [.event ⟨"notes.txt", 2⟩ true, .done] rfl rfl

/-- C6: a loop step ends in Terminated exactly when its input is the
cancellation signal, a closed change-event channel or a closed error-event
channel.  In each of the three cases the step only logs (no command, no clock
reading, timestamp untouched, whatever its value) and the loop stops there:
the inputs after it are not processed. -/
theorem terminates_iff_cancel_or_closed (W : World) (cfg : Config) (st : LoopState)
    (i : Input) (ev : Event) (e : GoError) (next : List Input) :
    ((loopStep W cfg st i).1 = .terminated ↔
      (i = .done ∨ (∃ ev1, i = .event ev1 false) ∨ (∃ e1, i = .error e1 false))) ∧
    (loopStep W cfg st .done = (.terminated, ⟨st.prevChangeTime, ⟨st.sys.ticks,
        st.sys.trace ++ [.log .info "exiting"]⟩⟩) ∧
     loopStep W cfg st (.event ev false) = (.terminated, ⟨st.prevChangeTime, ⟨st.sys.ticks,
        st.sys.trace ++ [.log .error "watcher events channel closed"]⟩⟩) ∧
     loopStep W cfg st (.error e false) = (.terminated, ⟨st.prevChangeTime, ⟨st.sys.ticks,
        st.sys.trace ++ [.log .error "watcher errors channel closed"]⟩⟩)) ∧
    (commands (loopStep W cfg st .done).2.sys.trace = commands st.sys.trace ∧
     commands (loopStep W cfg st (.event ev false)).2.sys.trace = commands st.sys.trace ∧
     commands (loopStep W cfg st (.error e false)).2.sys.trace = commands st.sys.trace) ∧
    (runLoop W cfg st (.done :: next) = loopStep W cfg st .done ∧
     runLoop W cfg st (.event ev false :: next) = loopStep W cfg st (.event ev false) ∧
     runLoop W cfg st (.error e false :: next) = loopStep W cfg st (.error e false)) := by
  refine ⟨?_, ⟨?_, ?_, ?_⟩, ⟨?_, ?_, ?_⟩, ⟨?_, ?_, ?_⟩⟩
  · cases i with
    | done => simp [loopStep]
    | event ev1 ok =>
      cases ok with
      | false => simp [loopStep]
      | true =>
        by_cases h : W.clock st.sys.ticks - st.prevChangeTime < quietWindow
        · simp [loopStep_skip W cfg st ev1 h]
        · simp [loopStep_accept W cfg st ev1 (by omega)]
    | error e1 ok => cases ok <;> simp [loopStep]
  all_goals simp [loopStep, runLoop, logMsg, emit]

/-- C7: no failure inside the loop is fatal.  After a change event on an open
channel the loop is running for every world, hence for each of the 16
success/failure assignments to Pull, StageAll, Commit and Push; an error event
on an open channel only logs: loop running, no command, no clock reading,
timestamp unchanged. -/
theorem loop_failures_are_not_fatal (W : World) (cfg : Config) (st : LoopState)
    (ev : Event) (e : GoError) (rPull rAdd rCommit rPush : GoError) (clock : Nat → Int) :
    (loopStep W cfg st (.event ev true)).1 = .running ∧
    (loopStep (scripted rPull rAdd rCommit rPush clock) cfg st (.event ev true)).1 = .running ∧
    loopStep W cfg st (.error e true) = (.running, ⟨st.prevChangeTime, ⟨st.sys.ticks,
        st.sys.trace ++ [.log .error "error received"]⟩⟩) ∧
    commands (loopStep W cfg st (.error e true)).2.sys.trace = commands st.sys.trace := by
  have key : ∀ W1 : World, (loopStep W1 cfg st (.event ev true)).1 = .running := by
    intro W1
    by_cases h : W1.clock st.sys.ticks - st.prevChangeTime < quietWindow
    · simp [loopStep_skip W1 cfg st ev h]
    · simp [loopStep_accept W1 cfg st ev (by omega)]
  refine ⟨key W, key _, ?_, ?_⟩ <;> simp [loopStep, logMsg, emit]

/-- C8: each sync operation is one call of `executeCommand` with working
directory `p`, command `git` and its fixed arguments; it adds exactly that one
command to the trace and returns what the world returned for it, unchanged. -/
theorem sync_operations_are_thin (W : World) (p d : String) (s : Sys) :
    (gitPull W p s = executeCommand W p "git" ["pull"] s ∧
     commands (gitPull W p s).2.trace = commands s.trace ++ [⟨p, "git", ["pull"]⟩] ∧
     (gitPull W p s).1 = resultOf W (commands s.trace) ⟨p, "git", ["pull"]⟩) ∧
    (gitAddAll W p s = executeCommand W p "git" ["add", "."] s ∧
     commands (gitAddAll W p s).2.trace = commands s.trace ++ [⟨p, "git", ["add", "."]⟩] ∧
     (gitAddAll W p s).1 = resultOf W (commands s.trace) ⟨p, "git", ["add", "."]⟩) ∧
    (gitCommit W p d s = executeCommand W p "git" ["commit", "-m", "auto sync from " ++ d] s ∧
     commands (gitCommit W p d s).2.trace =
       commands s.trace ++ [⟨p, "git", ["commit", "-m", "auto sync from " ++ d]⟩] ∧
     (gitCommit W p d s).1 =
       resultOf W (commands s.trace) ⟨p, "git", ["commit", "-m", "auto sync from " ++ d]⟩) ∧
    (gitPush W p s = executeCommand W p "git" ["push"] s ∧
     commands (gitPush W p s).2.trace = commands s.trace ++ [⟨p, "git", ["push"]⟩] ∧
     (gitPush W p s).1 = resultOf W (commands s.trace) ⟨p, "git", ["push"]⟩) := by
  have key : ∀ a : List String,
      commands (executeCommand W p "git" a s).2.trace = commands s.trace ++ [⟨p, "git", a⟩] := by
    intro a
    obtain ⟨l, m, h⟩ := executeCommand_snd W p "git" a s
    rw [h]; simp
  exact ⟨⟨rfl, key _, executeCommand_fst ..⟩, ⟨rfl, key _, executeCommand_fst ..⟩,
    ⟨rfl, key _, executeCommand_fst ..⟩, ⟨rfl, key _, executeCommand_fst ..⟩⟩

/-- C9: the commands an accepted change event invokes are exactly Pull, then
StageAll, then Commit if and only if StageAll succeeded, then Push if and only
if StageAll and Commit both succeeded: between 2 and 4 commands, and the list
does not depend on the result of Pull. -/
theorem accepted_event_commands (W : World) (cfg : Config) (st : LoopState) (ev : Event)
    (hacc : 5 * second ≤ W.clock st.sys.ticks - st.prevChangeTime) :
    commands (loopStep W cfg st (.event ev true)).2.sys.trace =
      commands st.sys.trace ++
        ([pullCmd cfg.path, addCmd cfg.path] ++
          (if resultOf W (commands st.sys.trace ++ [pullCmd cfg.path]) (addCmd cfg.path) = none
           then commitCmd cfg.path cfg.device ::
            (if resultOf W (commands st.sys.trace ++ [pullCmd cfg.path, addCmd cfg.path])
                (commitCmd cfg.path cfg.device) = none
             then [pushCmd cfg.path] else [])
           else [])) ∧
    2 + (commands st.sys.trace).length
      ≤ (commands (loopStep W cfg st (.event ev true)).2.sys.trace).length ∧
    (commands (loopStep W cfg st (.event ev true)).2.sys.trace).length
      ≤ 4 + (commands st.sys.trace).length := by
  have hs := loopStep_accept W cfg st ev hacc
  obtain ⟨rest, h1, h2, _, _⟩ := syncAttempt_spec W cfg ⟨st.sys.ticks + 2,
    st.sys.trace ++ [.now (W.clock st.sys.ticks), .now (W.clock (st.sys.ticks + 1)),
      .setPrev (W.clock (st.sys.ticks + 1)), .log .info "event received"]⟩
  simp only [commands_append, commands_cons_now, commands_cons_setPrev, commands_cons_log,
    commands_nil, List.append_nil] at h2
  have h3 : commands (loopStep W cfg st (.event ev true)).2.sys.trace =
      commands st.sys.trace ++ attemptCommands cfg.path cfg.device
        (resultOf W (commands st.sys.trace ++ [pullCmd cfg.path]) (addCmd cfg.path))
        (resultOf W (commands st.sys.trace ++ [pullCmd cfg.path, addCmd cfg.path])
          (commitCmd cfg.path cfg.device)) := by
    rw [hs]
    simp only [h1, commands_append, commands_cons_now, commands_cons_setPrev,
      commands_cons_log, commands_cons_exec, commands_nil, List.append_nil]
    rw [h2]
  rw [h3]
  unfold attemptCommands
  refine ⟨rfl, ?_, ?_⟩ <;> split_ifs <;> simp <;> omega

/-- Witness for C9: Pull fails, StageAll succeeds, Commit fails. -/
theorem accepted_event_commands_witness :
    commands (loopStep (scripted (some "exit status 1") none (some "exit status 1") none
        (linearClock 0 7000000000)) defaultConfig ⟨0, ⟨1, []⟩⟩
        (.event ⟨"notes.txt", 2⟩ true)).2.sys.trace =
      [pullCmd ".", addCmd ".", commitCmd "." "my-device"] :=
  (accepted_event_commands (scripted (some "exit status 1") none (some "exit status 1") none
    (linearClock 0 7000000000)) defaultConfig ⟨0, ⟨1, []⟩⟩ ⟨"notes.txt", 2⟩ (by decide)).1

/-- C10: under a monotone clock, along any finite run of the loop the
timestamps assigned form a chain in which each is at least 5 seconds after the
one before, starting from the timestamp the run started with, and the variable
holds the last of them; so the timestamp never decreases, in one step or over
the run.  An accepted event advances it by at least 5 seconds in every world
(whatever the four steps return).  For `main` the assigned timestamps are the
loop's start reading followed by the accepted ones, spaced the same way. -/
theorem debounce_timestamps_spaced (W : World) (cfg : Config) (st : LoopState)
    (setup : Setup) (inputs : List Input) (i : Input) (ev : Event)
    (hmono : Monotone W.clock) :
    (∃ new, stamps (runLoop W cfg st inputs).2.sys.trace = stamps st.sys.trace ++ new ∧
      List.Chain (fun a b => a + 5 * second ≤ b) st.prevChangeTime new ∧
      (runLoop W cfg st inputs).2.prevChangeTime = new.getLastD st.prevChangeTime) ∧
    st.prevChangeTime ≤ (loopStep W cfg st i).2.prevChangeTime ∧
    st.prevChangeTime ≤ (runLoop W cfg st inputs).2.prevChangeTime ∧
    (5 * second ≤ W.clock st.sys.ticks - st.prevChangeTime →
      (loopStep W cfg st (.event ev true)).2.prevChangeTime = W.clock (st.sys.ticks + 1) ∧
      st.prevChangeTime + 5 * second ≤ (loopStep W cfg st (.event ev true)).2.prevChangeTime) ∧
    (W.clock st.sys.ticks - st.prevChangeTime < 5 * second →
      (loopStep W cfg st (.event ev true)).2.prevChangeTime = st.prevChangeTime) ∧
    (stamps (main W cfg setup inputs).2.trace = [] ∨
      ∃ new, stamps (main W cfg setup inputs).2.trace = W.clock 0 :: new ∧
        List.Chain (fun a b => a + 5 * second ≤ b) (W.clock 0) new) := by
  obtain ⟨n, a, b, c⟩ := runLoop_stamps W cfg hmono inputs st
  obtain ⟨n1, _, b1, c1⟩ := loopStep_stamps W cfg hmono st i
  refine ⟨⟨n, a, b, c⟩, ?_, ?_, ?_, ?_, main_stamps W cfg setup inputs hmono⟩
  · rw [c1]; exact chain_spaced_le n1 _ b1
  · rw [c]; exact chain_spaced_le n _ b
  · intro hacc
    have hm : W.clock st.sys.ticks ≤ W.clock (st.sys.ticks + 1) := hmono (Nat.le_succ _)
    rw [loopStep_accept W cfg st ev hacc]
    refine ⟨rfl, ?_⟩
    show st.prevChangeTime + 5 * second ≤ W.clock (st.sys.ticks + 1)
    omega
  · intro hskip
    rw [loopStep_skip W cfg st ev hskip]

/-- Witness for C10: readings 3 s apart from a timestamp of 0; the events read
at 3 s and 12 s are skipped, the one read at 6 s is accepted (its timestamp is
the next reading, 9 s), and the loop is then cancelled. -/
theorem debounce_timestamps_spaced_witness :
    Monotone (scripted none (some "exit status 1") none none (linearClock 0 3000000000)).clock ∧
    stamps (runLoop (scripted none (some "exit status 1") none none (linearClock 0 3000000000))
      defaultConfig ⟨0, ⟨1, []⟩⟩ [.event ⟨"a", 2⟩ true, .event ⟨"b", 2⟩ true,
        .event ⟨"c", 2⟩ true, .done]).2.sys.trace = [9000000000] ∧
    (0 : Int) ≤ (runLoop (scripted none (some "exit status 1") none none
      (linearClock 0 3000000000)) defaultConfig ⟨0, ⟨1, []⟩⟩ [.event ⟨"a", 2⟩ true,
        .event ⟨"b", 2⟩ true, .event ⟨"c", 2⟩ true, .done]).2.prevChangeTime :=
  have hm : Monotone (scripted none (some "exit status 1") none none
      (linearClock 0 3000000000)).clock := by
    intro a b h
    show (0 : Int) + 3000000000 * (a : Int) ≤ 0 + 3000000000 * (b : Int)
    omega
  ⟨hm, by decide,
    (debounce_timestamps_spaced (scripted none (some "exit status 1") none none
      (linearClock 0 3000000000)) defaultConfig ⟨0, ⟨1, []⟩⟩ ⟨none, none, none⟩
      [.event ⟨"a", 2⟩ true, .event ⟨"b", 2⟩ true, .event ⟨"c", 2⟩ true, .done]
      .done ⟨"a", 2⟩ hm).2.2.1⟩

end AutoSync
